import Mathlib

/-!
Shallow embedding of the lectio/resource content-resolution pipeline
(factory.go, page.go, file.go, issue.go, content.go) and proofs about it.

Conventions used throughout:
- Go pointers that may be nil are modelled as Option values.
- Go interface values that may be nil are modelled as Option values; calling a
  method on a nil interface value panics in Go, which is modelled by functions
  returning Option results where none stands for the panic.
- Fallible Go calls are modelled as Except values.
- External calls (the HTTP transport, NewPageType, io.Copy, os.Open,
  filetype.Match) are modelled as oracle inputs: the embedding is parametrized
  by their outcome, mirroring exactly how the source branches on them.
- Go maps from string to string are modelled as association lists with unique
  keys where assignment overwrites the existing entry (last writer wins).
-/

namespace Resource

/-! ### String helpers (Go standard library behaviour used by page.go) -/

/-- ASCII simple case folding of a single character.  Models the per-rune fold
of strings.EqualFold restricted to ASCII, which covers every literal compared
in the source (head, meta, http-equiv, refresh, content, property, name). -/
def foldChar (c : Char) : Char :=
  if 'A' ≤ c && c ≤ 'Z' then Char.ofNat (c.toNat + 32) else c

/-- strings.EqualFold (ASCII restriction): case-insensitive equality. -/
def eqFold (s t : String) : Bool :=
  s.toList.map foldChar == t.toList.map foldChar

/-- Whitespace recognised by strings.TrimSpace on ASCII input:
space, tab, newline, vertical tab, form feed, carriage return. -/
def goTrimIsSpace (c : Char) : Bool :=
  c == ' ' || c == '\t' || c == '\n' || c == '\x0b' || c == '\x0c' || c == '\r'

/-- strings.TrimSpace (ASCII restriction): drop leading and trailing whitespace. -/
def trimSpace (s : String) : String :=
  String.mk (((s.toList.dropWhile goTrimIsSpace).reverse.dropWhile goTrimIsSpace).reverse)

/-! ### The meta-refresh content pattern (page.go lines 14-16)

The source compiles the Go regular expression

  metaRefreshContentRegEx = regexp.MustCompile of pattern (anchored)
    caret (\d?)\s?;\s?url=(.*)(dollar)

RE2 semantics notes justifying the functional translation:
- the digit class \d is [0-9]; the space class \s is [\t\n\f\r and space];
- each quantified atom here is deterministic: a digit can never satisfy the
  following space-or-semicolon position, and a space can never satisfy the
  following semicolon or the literal u, so the greedy match never needs to
  backtrack across the optional atoms;
- dot does not match a newline and the final anchor matches only the end of
  the text, so the second capture group is the whole remainder and the match
  fails if the remainder contains a newline. -/

/-- RE2 digit class. -/
def goIsDigit (c : Char) : Bool := '0' ≤ c && c ≤ '9'

/-- RE2 space class (note: no vertical tab, unlike strings.TrimSpace). -/
def goReIsSpace (c : Char) : Bool :=
  c == '\t' || c == '\n' || c == '\x0c' || c == '\r' || c == ' '

/-- Consume at most one character satisfying p (a question-mark quantifier). -/
def optTake (p : Char → Bool) : List Char → (List Char × List Char)
  | [] => ([], [])
  | c :: rest => if p c then ([c], rest) else ([], c :: rest)

/-- Consume as many characters satisfying p as possible (a star quantifier). -/
def manyTake (p : Char → Bool) (cs : List Char) : (List Char × List Char) :=
  (cs.takeWhile p, cs.dropWhile p)

/-- Consume an exact literal character sequence. -/
def dropLiteral : List Char → List Char → Option (List Char)
  | [], cs => some cs
  | _ :: _, [] => none
  | l :: ls, c :: cs => if c == l then dropLiteral ls cs else none

/-- FindStringSubmatch for the compiled pattern metaRefreshContentRegEx of the
source: anchored, one optional digit, one optional space, a semicolon, one
optional space, the literal url=, then the remainder.  Returns the two capture
groups (delay text, url text) on success. -/
def metaRefreshContentMatch (s : String) : Option (String × String) :=
  let cs := s.toList
  let (g1, cs) := optTake goIsDigit cs
  let (_, cs) := optTake goReIsSpace cs
  match cs with
  | ';' :: cs =>
    let (_, cs) := optTake goReIsSpace cs
    match dropLiteral "url=".toList cs with
    | some rest =>
      if rest.any (fun c => c == '\n') then none
      else some (String.mk g1, String.mk rest)
    | none => none
  | _ => none

/-- Modelled from the spec: the pattern the specification text claims is used,
with a star on the digit group and on both space positions — any number of
leading digits and any amount of whitespace around the semicolon.  This
definition follows the words of the spec and exists only to be compared with
metaRefreshContentMatch, which is translated from the source. -/
def specRefreshPatternMatch (s : String) : Option (String × String) :=
  let cs := s.toList
  let (g1, cs) := manyTake goIsDigit cs
  let (_, cs) := manyTake goReIsSpace cs
  match cs with
  | ';' :: cs =>
    let (_, cs) := manyTake goReIsSpace cs
    match dropLiteral "url=".toList cs with
    | some rest =>
      if rest.any (fun c => c == '\n') then none
      else some (String.mk g1, String.mk rest)
    | none => none
  | _ => none

/-! ### HTML document model (golang.org/x/net/html as used by page.go)

An html.Node has a NodeType, a Data string (the tag name for element nodes),
an attribute list, and children reached through FirstChild/NextSibling —
semantically, an ordered list of child nodes. -/

/-- html.NodeType constants of golang.org/x/net/html. -/
inductive NodeType where
  | errorNode
  | textNode
  | documentNode
  | elementNode
  | commentNode
  | doctypeNode
deriving DecidableEq, Repr

/-- html.Attribute (the Namespace field is never consulted by the source). -/
structure Attr where
  key : String
  val : String
deriving DecidableEq, Repr

/-- html.Node: node type, data (tag name), attributes, ordered children. -/
inductive HtmlNode where
  | mk (ntype : NodeType) (data : String) (attrs : List Attr) (children : List HtmlNode)
deriving Repr

def HtmlNode.ntype : HtmlNode → NodeType
  | .mk t _ _ _ => t

def HtmlNode.data : HtmlNode → String
  | .mk _ d _ _ => d

def HtmlNode.attrs : HtmlNode → List Attr
  | .mk _ _ a _ => a

def HtmlNode.children : HtmlNode → List HtmlNode
  | .mk _ _ _ cs => cs

/-- n.Type == html.ElementNode && strings.EqualFold(n.Data, "head"). -/
def isHeadElem (n : HtmlNode) : Bool :=
  n.ntype == .elementNode && eqFold n.data "head"

/-- n.Type == html.ElementNode && strings.EqualFold(n.Data, "meta"). -/
def isMetaElem (n : HtmlNode) : Bool :=
  n.ntype == .elementNode && eqFold n.data "meta"

/-! ### The metadata-extraction traversal state (page.go lines 119-156)

The closure f in parsePageMetaData mutates four things: the inHead boolean
and the three Page fields IsHTMLRedirect, MetaRefreshTagContentURLText and
MetaPropertyTags.  MetaState carries exactly those. -/

structure MetaState where
  isRedirect : Bool
  redirectText : String
  tags : List (String × String)
  inHead : Bool
deriving DecidableEq, Repr

/-- Go map assignment m[k] = v on the association-list model:
overwrite the entry for k if present, otherwise append it. -/
def mapInsert (m : List (String × String)) (k v : String) : List (String × String) :=
  if m.any (fun p => p.1 == k) then
    m.map (fun p => if p.1 == k then (k, v) else p)
  else m ++ [(k, v)]

/-- Map lookup m[k]: value of the first (unique) entry with key k. -/
def mapLookup (m : List (String × String)) (k : String) : Option String :=
  (m.find? (fun p => p.1 == k)).map (fun p => p.2)

/-- Inner scan of a meta element for a content attribute paired with a
refresh http-equiv (page.go lines 128-140): on a content key, trim its value,
run the compiled pattern, and on a full match record the redirect and store
the second capture group verbatim. -/
def processRefreshContent (st : MetaState) (attr : Attr) : MetaState :=
  if eqFold attr.key "content" then
    let contentValue := trimSpace attr.val
    match metaRefreshContentMatch contentValue with
    | some (_, urlText) => { st with isRedirect := true, redirectText := urlText }
    | none => st
  else st

/-- Inner scan of a meta element for a content attribute paired with a
property or name key (page.go lines 144-148): store key to content value. -/
def processNameContent (propertyName : String) (st : MetaState) (attr : Attr) : MetaState :=
  if eqFold attr.key "content" then
    { st with tags := mapInsert st.tags propertyName attr.val }
  else st

/-- One iteration of the outer attribute loop (page.go lines 126-150): the
refresh check and the property/name check run one after the other on the same
attribute, each rescanning the full attribute list for content. -/
def processMetaAttr (attrs : List Attr) (st : MetaState) (attr : Attr) : MetaState :=
  let st :=
    if eqFold attr.key "http-equiv" && eqFold (trimSpace attr.val) "refresh" then
      attrs.foldl processRefreshContent st
    else st
  if eqFold attr.key "property" || eqFold attr.key "name" then
    attrs.foldl (processNameContent attr.val) st
  else st

/-- Processing of one meta element: the outer loop over its attributes. -/
def processMeta (st : MetaState) (attrs : List Attr) : MetaState :=
  attrs.foldl (processMetaAttr attrs) st

/- The recursive traversal closure f of parsePageMetaData: set inHead on a
head element, process meta elements while inHead, then recurse over the
children in order. -/
mutual

def visit (st : MetaState) : HtmlNode → MetaState
  | .mk t d a cs =>
    let st := if t == .elementNode && eqFold d "head" then { st with inHead := true } else st
    let st := if st.inHead && (t == .elementNode && eqFold d "meta") then processMeta st a else st
    visitList st cs

def visitList (st : MetaState) : List HtmlNode → MetaState
  | [] => st
  | c :: cs => visitList (visit st c) cs

end

/-! ### Pre-order linearization, used to state what the traversal does -/

mutual

def preorder : HtmlNode → List HtmlNode
  | .mk t d a cs => .mk t d a cs :: preorderList cs

def preorderList : List HtmlNode → List HtmlNode
  | [] => []
  | c :: cs => preorder c ++ preorderList cs

end

/-- The meta elements that are eligible for processing, read off a pre-order
node sequence: walking left to right with a head-seen flag, a meta element is
eligible exactly when a head element occurs at or before it. -/
def metasFrom : List HtmlNode → Bool → List (List Attr)
  | [], _ => []
  | n :: rest, inHead =>
    let inHead2 := inHead || isHeadElem n
    (if inHead2 && isMetaElem n then [n.attrs] else []) ++ metasFrom rest inHead2

/-- Process a sequence of eligible meta elements in order. -/
def applyMetas (st : MetaState) (ms : List (List Attr)) : MetaState :=
  ms.foldl processMeta st

/-! ### Issues (issue.go) -/

def TargetURLIsBlank : String := "RESOURCE_E-0050"
def TargetURLIsNil : String := "RESOURCE_E-0051"
def UnableToCreateHTTPRequest : String := "RESOURCE_E-0100"
def UnableToExecuteHTTPGETRequest : String := "RESOURCE_E-0200"
def InvalidHTTPRespStatusCode : String := "RESOURCE_E-0300"
def UnableToParseHTTPBody : String := "RESOURCE_E-0400"
def UnableToInspectMediaTypeFromContentType : String := "RESOURCE_E-0500"
def PolicyIsNil : String := "RESOURCE_E-0600"
def CopyErrorDuringFileDownload : String := "RESOURCE_E-0700"
def MetaTagsNotAvailableInNonHTMLContent : String := "RESOURCE_W-0100"
def MetaTagsNotAvailableInUnparsedHTML : String := "RESOURCE_W-0101"
def UnableToInspectFileType : String := "RESOURCE_S-0200"

/-- The concrete issue struct of issue.go: context, stable code, message,
error/warning severity bit. -/
structure Issue where
  context : String
  code : String
  message : String
  isError : Bool
deriving DecidableEq, Repr

def newIssue (context code message : String) (isError : Bool) : Issue :=
  { context := context, code := code, message := message, isError := isError }

/-- newHTTPResponseIssue: the HTTP status code is embedded into the issue code
string, InvalidHTTPRespStatusCode-HTTP-status. -/
def newHTTPResponseIssue (context : String) (httpRespStatusCode : Nat)
    (message : String) (isError : Bool) : Issue :=
  { context := context,
    code := InvalidHTTPRespStatusCode ++ "-HTTP-" ++ toString httpRespStatusCode,
    message := message,
    isError := isError }

def Issue.IsError (i : Issue) : Bool := i.isError

def Issue.IsWarning (i : Issue) : Bool := !i.isError

/-! ### Content type (the Type interface of content.go)

The Type Classifier (NewPageType) is not among the sources under
verification; only its callers are.  Its result value is modelled as the
structured triple described by the Type interface, and every function that
calls NewPageType is parametrized by an oracle giving the outcome of that
call, so nothing below depends on the classifier internals. -/

/-- A value implementing the Type interface: raw content type, parsed media
type, parameter mapping. -/
structure PageTypeVal where
  contentType : String
  mediaType : String
  mediaTypeParams : List (String × String)
deriving DecidableEq, Repr

def PageTypeVal.ContentType (t : PageTypeVal) : String := t.contentType

def PageTypeVal.MediaType (t : PageTypeVal) : String := t.mediaType

/-! ### FileAttachment (file.go) -/

/-- A types.Type value of the filetype library (extension and MIME). -/
structure FileTypeV where
  extension : String
  mime : String
deriving DecidableEq, Repr

/-- FileAttachment struct of file.go.  FileType is none while no signature
match has been recorded (the zero value of types.Type in Go). -/
structure FileAttachment where
  ContentType : Option PageTypeVal := none
  TargetURL : Option String := none
  DestPath : String := ""
  FileType : Option FileTypeV := none
  AllIssues : List Issue := []
deriving DecidableEq, Repr

/-- FileAttachment.IsValid: true if the issue list is nil or empty. -/
def FileAttachment.IsValid (a : FileAttachment) : Bool := a.AllIssues.isEmpty

/-! ### Page (page.go lines 24-34) and its methods -/

/-- The Page struct.  Field defaults are the Go zero values produced by
new(Page).  TargetURL is an Option for the nil pointer, PageType an Option
for the nil Type interface value, DownloadedAttachment an Option for the nil
Attachment interface value.  The factory variant of the source additionally
carries a lowercase valid flag, included here. -/
structure Page where
  TargetURL : Option String := none
  PageType : Option PageTypeVal := none
  HTMLParsed : Bool := false
  IsHTMLRedirect : Bool := false
  MetaRefreshTagContentURLText : String := ""
  MetaPropertyTags : List (String × String) := []
  AllIssues : List Issue := []
  DownloadedAttachment : Option FileAttachment := none
  valid : Bool := false
deriving DecidableEq, Repr

/-- Page.IsValid (page.go lines 206-209): true if AllIssues is nil or empty. -/
def Page.IsValid (p : Page) : Bool := p.AllIssues.isEmpty

/-- Page.IsHTML (page.go lines 216-219): p.Type().MediaType() == text/html.
When PageType is the nil interface value, calling MediaType() on it panics;
the panic is modelled by none. -/
def Page.IsHTML (p : Page) : Option Bool :=
  match p.PageType with
  | some t => some (t.MediaType == "text/html")
  | none => none

/-- Page.TargetURLText (page.go lines 221-227). -/
def Page.TargetURLText (p : Page) : String :=
  match p.TargetURL with
  | none => "NilTargetURL"
  | some u => u

/-- Page.MetaTags (page.go lines 229-238).  The call to IsHTML() panics when
PageType is nil (outer none); otherwise either a warning issue or the tag
mapping is returned. -/
def Page.MetaTags (p : Page) : Option (Except Issue (List (String × String))) :=
  match p.IsHTML with
  | none => none
  | some isHtml =>
    if !isHtml then
      some (.error (newIssue p.TargetURLText MetaTagsNotAvailableInNonHTMLContent
        "Meta tags not available in non-HTML content" false))
    else if !p.HTMLParsed then
      some (.error (newIssue p.TargetURLText MetaTagsNotAvailableInUnparsedHTML
        "Meta tags not available in unparsed HTML (error or policy did not request parsing)" false))
    else
      some (.ok p.MetaPropertyTags)

/-- Page.MetaTag (page.go lines 240-248): delegate to MetaTags (whose panic
propagates as none), then a map lookup returning (value, ok, nil issue). -/
def Page.MetaTag (p : Page) (key : String) : Option (Option String × Bool × Option Issue) :=
  match p.MetaTags with
  | none => none
  | some (.error issue) => some (none, false, some issue)
  | some (.ok tags) =>
    let result := mapLookup tags key
    some (result, result.isSome, none)

/-- Page.Redirect (page.go lines 252-254). -/
def Page.Redirect (p : Page) : Bool × String :=
  (p.IsHTMLRedirect, p.MetaRefreshTagContentURLText)

/-! ### HTTP response model

The embedding carries, for one response: the final status code, the value of
Header.Get("Content-Type") (the empty string when the header is absent), the
URL of the followed request (resp.Request.URL) and the outcome of handing the
body stream to html.Parse (which consumes the body exactly once). -/

structure HTTPResponse where
  statusCode : Nat
  contentTypeHeader : String
  requestURL : String
  parseOutcome : Except String HtmlNode
deriving Repr

/-! ### parsePageMetaData (page.go lines 111-158)

The function body is, in order:
  doc, parseError := html.Parse(resp.Body)
  if parseError != nil then append an UnableToParseHTTPBody issue and return
    the error — at this point the deferred body close has NOT yet been
    registered, so the body is not closed on this exit path;
  defer resp.Body.Close() — registered only now, so it runs exactly on the
    success path;
  run the traversal f over the document and return nil. -/

/-- Result of one parsePageMetaData call: the updated page, the returned
error value, and whether resp.Body.Close() was invoked on that path. -/
structure ParseRunResult where
  page : Page
  returned : Option String
  bodyClosed : Bool
deriving DecidableEq, Repr

def parsePageMetaData (p : Page) (url : String)
    (parseOutcome : Except String HtmlNode) : ParseRunResult :=
  match parseOutcome with
  | .error parseError =>
    { page := { p with AllIssues := p.AllIssues ++ [newIssue url UnableToParseHTTPBody parseError true] },
      returned := some parseError,
      bodyClosed := false }
  | .ok doc =>
    let st := visit
      { isRedirect := p.IsHTMLRedirect,
        redirectText := p.MetaRefreshTagContentURLText,
        tags := p.MetaPropertyTags,
        inHead := false } doc
    { page := { p with
        IsHTMLRedirect := st.isRedirect,
        MetaRefreshTagContentURLText := st.redirectText,
        MetaPropertyTags := st.tags },
      returned := none,
      bodyClosed := true }

/-! ### DownloadFile (file.go lines 90-154)

The filesystem and the response stream are external; their outcomes are
oracle inputs collected in DownloadEnv, consumed in exactly the order the
source consults them.  The bytes read into the 261-byte head buffer are not a
field because the source discards the result of file.Read entirely — the
signature match outcome (an oracle) is the only thing the code branches on. -/

structure DownloadEnv where
  policyPresent : Bool
  createFileOutcome : Except Issue String
  copyOutcome : Option String
  autoAssign : Bool
  openOutcome : Option String
  matchOutcome : Except String FileTypeV
deriving Repr

/-- path.Ext of the Go standard library: the suffix beginning at the final
dot in the final slash-separated element, empty if there is no dot. -/
def pathExt (p : String) : String :=
  let rev := p.toList.reverse.takeWhile (fun c => c != '/')
  if rev.any (fun c => c == '.') then
    String.mk ('.' :: (rev.takeWhile (fun c => c != '.')).reverse)
  else ""

/-- currentPath[0 : len(currentPath)-len(ext)] ++ "." ++ extension, the new
path computed before os.Rename in step 5. -/
def renamedPath (currentPath extension : String) : String :=
  String.mk (currentPath.toList.take (currentPath.toList.length - (pathExt currentPath).toList.length))
    ++ "." ++ extension

def DownloadFile (env : DownloadEnv) (url : Option String) (respPresent : Bool)
    (typ : Option PageTypeVal) : Bool × Option FileAttachment × List Issue :=
  match url with
  | none =>
    let issues := [newIssue "NilTargetURL" TargetURLIsNil "url is nil in resource.DownloadFile" true]
    (false, none, issues)
  | some u =>
    if !respPresent then
      let issues := [newIssue "NilHTTPResponse" TargetURLIsNil "http.Response is nil in resource.DownloadFile" true]
      (false, none, issues)
    else
      let result : FileAttachment := { TargetURL := some u, ContentType := typ }
      if !env.policyPresent then
        let result := { result with AllIssues := result.AllIssues ++ [newIssue u PolicyIsNil "Policy is nil in resource.DownloadFile" true] }
        (false, some result, result.AllIssues)
      else
        match env.createFileOutcome with
        | .error issue =>
          let result := { result with AllIssues := result.AllIssues ++ [issue] }
          (false, some result, result.AllIssues)
        | .ok destName =>
          let result := { result with DestPath := destName }
          match env.copyOutcome with
          | some err =>
            let result := { result with AllIssues := result.AllIssues ++ [newIssue u CopyErrorDuringFileDownload err true] }
            (false, some result, result.AllIssues)
          | none =>
            if env.autoAssign then
              match env.openOutcome with
              | some err =>
                let result := { result with AllIssues := result.AllIssues ++ [newIssue u UnableToInspectFileType err true] }
                (false, some result, result.AllIssues)
              | none =>
                -- file.Read(head) is performed and its result discarded; file.Close()
                match env.matchOutcome with
                | .ok fileType =>
                  let result := { result with
                    FileType := some fileType,
                    DestPath := renamedPath result.DestPath fileType.extension }
                  (true, some result, result.AllIssues)
                | .error _ =>
                  (true, some result, result.AllIssues)
            else
              (true, some result, result.AllIssues)

/-! ### The factory (factory.go)

Policies are interface-typed fields that may be nil (Option).  A policy
answer depends only on the URL argument in this model (the Go versions also
receive a context, which no policy decision in scope inspects).  The content
downloader and the classifier NewPageType are external calls, passed as
oracle functions. -/

structure Factory where
  detectRedirectsPolicy : Option (String → Bool) := none
  parseMetaDataInHTMLContentPolicy : Option (String → Bool) := none
  contentDownloader : Option (String → Option PageTypeVal → (Bool × Option FileAttachment × Option String)) := none
  contentDownloaderErrorPolicy : Option (String → Option PageTypeVal → String → Bool) := none

/-- factory.detectRedirectsInHTMLContent (factory.go lines 132-137):
return the policy answer, defaulting to true when no policy is set. -/
def Factory.detectRedirectsInHTMLContent (f : Factory) (url : String) : Bool :=
  match f.detectRedirectsPolicy with
  | some policy => policy url
  | none => true

/-- factory.parseMetaDataInHTMLContent (factory.go lines 139-144): the policy
method is invoked but its result is discarded — the function body falls
through to an unconditional return true. -/
def Factory.parseMetaDataInHTMLContent (f : Factory) (url : String) : Bool :=
  match f.parseMetaDataInHTMLContentPolicy with
  | some policy =>
    let _ := policy url
    true
  | none => true

/-- The tail of pageFromHTTPResponse (factory.go lines 197-211): optional
download through the injected content downloader, a download error being
fatal only when the error policy says to stop, then valid := true. -/
def Factory.downloadPhase (f : Factory) (url : String) (result : Page) : Page × Option String :=
  match f.contentDownloader with
  | some downloadContent =>
    let (ok, attachment, err) := downloadContent url result.PageType
    match err with
    | some e =>
      match f.contentDownloaderErrorPolicy with
      | some policy =>
        if policy url result.PageType e then (result, some e)
        else ({ result with valid := true }, none)
      | none => ({ result with valid := true }, none)
    | none =>
      if ok && attachment.isSome then
        ({ result with DownloadedAttachment := attachment, valid := true }, none)
      else
        ({ result with valid := true }, none)
  | none => ({ result with valid := true }, none)

/-- factory.pageFromHTTPResponse (factory.go lines 178-212).  classify is the
oracle for the external NewPageType(url, contentType) call. -/
def Factory.pageFromHTTPResponse (f : Factory)
    (classify : String → String → Except String PageTypeVal)
    (url : String) (resp : HTTPResponse) : Page × Option String :=
  let result : Page := { MetaPropertyTags := [], TargetURL := some url }
  if resp.contentTypeHeader.length > 0 then
    match classify url resp.contentTypeHeader with
    | .error err => (result, some err)
    | .ok pt =>
      let result := { result with PageType := some pt }
      if result.IsHTML == some true
          && (f.detectRedirectsInHTMLContent url || f.parseMetaDataInHTMLContent url) then
        let run := parsePageMetaData result url resp.parseOutcome
        ({ run.page with HTMLParsed := true }, none)
      else
        f.downloadPhase url result
  else
    f.downloadPhase url result

/-- Observable I/O steps of PageFromURL before a page exists: obtaining the
HTTP client, constructing the GET request, running the preparation hook, and
issuing the GET. -/
inductive FactoryEffect where
  | obtainHTTPClient
  | newHTTPRequest
  | prepareHTTPRequest
  | httpGet
deriving DecidableEq, Repr

/-- The error values PageFromURL can return (errors.go):
the blank-target Error with Code 50, wrapped request/transport errors, the
InvalidHTTPRespStatusCodeError carrying Code 200 together with the actual
HTTP status in its HTTPStatusCode field, and errors propagated from
pageFromHTTPResponse. -/
inductive FactoryError where
  | targetURLIsBlank (code : Nat)
  | unableToCreateHTTPRequest (msg : String)
  | unableToExecuteHTTPGET (msg : String)
  | invalidHTTPRespStatusCode (code : Nat) (httpStatusCode : Nat)
  | pageError (msg : String)
deriving DecidableEq, Repr

/-- factory.PageFromURL (factory.go lines 147-175), instrumented with the
list of I/O effects it performs.  newRequestOutcome and getOutcome are the
oracles for http.NewRequest and httpClient.Do. -/
def Factory.PageFromURL (f : Factory)
    (classify : String → String → Except String PageTypeVal)
    (origURLtext : String)
    (newRequestOutcome : Except String Unit)
    (getOutcome : Except String HTTPResponse) :
    (Option Page × Option FactoryError) × List FactoryEffect :=
  if origURLtext.length == 0 then
    ((none, some (.targetURLIsBlank 50)), [])
  else
    let effects := [FactoryEffect.obtainHTTPClient]
    match newRequestOutcome with
    | .error m => ((none, some (.unableToCreateHTTPRequest m)), effects ++ [.newHTTPRequest])
    | .ok _ =>
      let effects := effects ++ [FactoryEffect.newHTTPRequest, FactoryEffect.prepareHTTPRequest]
      match getOutcome with
      | .error m => ((none, some (.unableToExecuteHTTPGET m)), effects ++ [.httpGet])
      | .ok resp =>
        let effects := effects ++ [FactoryEffect.httpGet]
        if resp.statusCode != 200 then
          ((none, some (.invalidHTTPRespStatusCode 200 resp.statusCode)), effects)
        else
          let (page, err) := f.pageFromHTTPResponse classify resp.requestURL resp
          ((some page, err.map .pageError), effects)

/-! ### The page.go entry points (the policy-interface variant)

page.go carries the earlier variant of the resolver: NewPageFromURL and
NewPageFromHTTPResponse driven by a single Policy interface.  The Policy
methods used on this path are the two HTML policies and DownloadContent. -/

structure Policy where
  detectRedirectsInHTMLContent : String → Bool
  parseMetaDataInHTMLContent : String → Bool
  downloadContent : String → Option PageTypeVal → (Bool × Option FileAttachment × List Issue)

/-- The tail of NewPageFromHTTPResponse (page.go lines 98-108): call
policy.DownloadContent, append every returned issue, and record the
attachment when ok and non-nil. -/
def pageDownloadPhase (policy : Policy) (url : String) (result : Page) : Page :=
  let (ok, attachment, issues) := policy.downloadContent url result.PageType
  let result := { result with AllIssues := result.AllIssues ++ issues }
  if ok && attachment.isSome then
    { result with DownloadedAttachment := attachment }
  else result

/-- NewPageFromHTTPResponse (page.go lines 70-109).  classify is the oracle
for NewPageType, which on this path reports failure as an Issue. -/
def NewPageFromHTTPResponse (url : Option String) (resp : HTTPResponse)
    (policy : Option Policy)
    (classify : String → String → Except Issue PageTypeVal) : Page :=
  let result : Page := { MetaPropertyTags := [], TargetURL := url }
  match url with
  | none =>
    { result with AllIssues := result.AllIssues ++ [newIssue "NilTargetURL" TargetURLIsNil "TargetURL is nil in resource.NewPageFromHTTPResponse" true] }
  | some u =>
    match policy with
    | none =>
      { result with AllIssues := result.AllIssues ++ [newIssue u PolicyIsNil "Policy is nil in resource.NewPageFromHTTPResponse" true] }
    | some pol =>
      if resp.contentTypeHeader.length > 0 then
        match classify u resp.contentTypeHeader with
        | .error issue =>
          { result with AllIssues := result.AllIssues ++ [issue] }
        | .ok pt =>
          let result := { result with PageType := some pt }
          if result.IsHTML == some true
              && (pol.detectRedirectsInHTMLContent u || pol.parseMetaDataInHTMLContent u) then
            let run := parsePageMetaData result u resp.parseOutcome
            { run.page with HTMLParsed := true }
          else
            pageDownloadPhase pol u result
      else
        pageDownloadPhase pol u result

/-- NewPageFromURL (page.go lines 37-67), instrumented with the I/O effects
it performs before a page exists.  Returns the page (nil on failure), the
returned Issue, and the effect list. -/
def NewPageFromURL (origURLtext : String) (policy : Option Policy)
    (classify : String → String → Except Issue PageTypeVal)
    (newRequestOutcome : Except String Unit)
    (getOutcome : Except String HTTPResponse) :
    (Option Page × Option Issue) × List FactoryEffect :=
  if origURLtext.length == 0 then
    ((none, some (newIssue "BlankTargetURL" TargetURLIsBlank "TargetURL is blank in resource.NewPageFromURL" true)), [])
  else
    match policy with
    | none =>
      ((none, some (newIssue origURLtext PolicyIsNil "Policy is nil in resource.NewPageFromURL" true)), [])
    | some pol =>
      let effects := [FactoryEffect.obtainHTTPClient]
      match newRequestOutcome with
      | .error m =>
        ((none, some (newIssue origURLtext UnableToCreateHTTPRequest ("Unable to create HTTP request: " ++ m) true)),
         effects ++ [.newHTTPRequest])
      | .ok _ =>
        let effects := effects ++ [FactoryEffect.newHTTPRequest, FactoryEffect.prepareHTTPRequest]
        match getOutcome with
        | .error m =>
          ((none, some (newIssue origURLtext UnableToExecuteHTTPGETRequest ("Unable to execute HTTP GET request: " ++ m) true)),
           effects ++ [.httpGet])
        | .ok resp =>
          let effects := effects ++ [FactoryEffect.httpGet]
          if resp.statusCode != 200 then
            ((none, some (newHTTPResponseIssue origURLtext resp.statusCode
              ("Invalid HTTP Response Status Code: " ++ toString resp.statusCode) true)), effects)
          else
            ((some (NewPageFromHTTPResponse (some resp.requestURL) resp (some pol) classify), none), effects)

/-! ## Theorems -/

/-- The zero value new(Page). -/
def emptyPage : Page := {}

/-- An empty parsed document: html.Parse always wraps content in a
DocumentNode root. -/
def emptyDoc : HtmlNode := .mk .documentNode "" [] []

/-! ### C1 -/

/-- The policy answering no for every URL. -/
def c1NoPolicy : String → Bool := fun _ => false

/-- A factory whose injected redirect-detection and metadata-parsing policies
both answer no. -/
def c1Factory : Factory :=
  { detectRedirectsPolicy := some c1NoPolicy,
    parseMetaDataInHTMLContentPolicy := some c1NoPolicy }

/-- A classified text/html media type. -/
def htmlPageType : PageTypeVal :=
  { contentType := "text/html; charset=utf-8", mediaType := "text/html", mediaTypeParams := [("charset", "utf-8")] }

/-- A classifier oracle answering text/html. -/
def c1Classify : String → String → Except String PageTypeVal := fun _ _ => .ok htmlPageType

/-- A 200 text/html response with a trivially parseable body. -/
def c1Resp : HTTPResponse :=
  { statusCode := 200, contentTypeHeader := "text/html; charset=utf-8",
    requestURL := "https://example.com/", parseOutcome := .ok emptyDoc }

/-- C1: the claim says that when both injected policies answer no for the
URL, metadata extraction does not run and HTMLParsed stays false.  The code
violates this: factory.parseMetaDataInHTMLContent invokes the policy but
discards its answer and returns true unconditionally (factory.go lines
139-144), so the dispatch condition of pageFromHTTPResponse (line 190) is
true for every text/html response and HTMLParsed is set.  This theorem
evaluates the code at the failing input: both policies answer no, the
classified media type is exactly text/html, yet HTMLParsed ends up true. -/
theorem c1_both_policies_no_still_parses :
    c1NoPolicy "https://example.com/" = false
    ∧ c1Factory.detectRedirectsPolicy = some c1NoPolicy
    ∧ c1Factory.parseMetaDataInHTMLContentPolicy = some c1NoPolicy
    ∧ c1Classify "https://example.com/" "text/html; charset=utf-8" = .ok htmlPageType
    ∧ htmlPageType.MediaType = "text/html"
    ∧ ((c1Factory.pageFromHTTPResponse c1Classify "https://example.com/" c1Resp).1).HTMLParsed = true :=
  ⟨rfl, rfl, rfl, rfl, rfl, rfl⟩

/-! ### C4 -/

/-- C4: the claim says the response body is closed on every exit path of
parsePageMetaData.  The code violates this: the deferred resp.Body.Close()
(page.go line 117) is registered only after the parse-error early return
(lines 113-116), so on a parse failure the function exits without closing the
body.  This theorem evaluates the embedding at a failing parse outcome — the
bodyClosed flag records whether resp.Body.Close() ran on that path — and, for
contrast, at a successful parse, where the body is closed. -/
theorem c4_body_not_closed_on_parse_error :
    (parsePageMetaData emptyPage "https://example.com/" (.error "unexpected EOF")).bodyClosed = false
    ∧ (parsePageMetaData emptyPage "https://example.com/" (.error "unexpected EOF")).returned = some "unexpected EOF"
    ∧ (parsePageMetaData emptyPage "https://example.com/" (.ok emptyDoc)).bodyClosed = true :=
  ⟨rfl, rfl, rfl⟩

/-! ### C8 -/

/-- C8: for the empty URL string, PageFromURL returns the blank-target error
(Error with Code 50; issue code RESOURCE_E-0050 in the page.go variant) and
performs no I/O at all: the effect trace is empty — no HTTP client obtained,
no request constructed, no GET issued.  Holds for every factory, policy,
classifier and transport oracle. -/
theorem c8_blank_url_rejected_before_io
    (f : Factory) (classify : String → String → Except String PageTypeVal)
    (reqOut : Except String Unit) (getOut : Except String HTTPResponse)
    (pol : Option Policy) (classifyI : String → String → Except Issue PageTypeVal)
    (reqOut2 : Except String Unit) (getOut2 : Except String HTTPResponse) :
    f.PageFromURL classify "" reqOut getOut
      = ((none, some (.targetURLIsBlank 50)), [])
    ∧ NewPageFromURL "" pol classifyI reqOut2 getOut2
      = ((none, some (newIssue "BlankTargetURL" TargetURLIsBlank "TargetURL is blank in resource.NewPageFromURL" true)), [])
    ∧ TargetURLIsBlank = "RESOURCE_E-0050" :=
  ⟨rfl, rfl, rfl⟩

/-! ### C9 -/

/-- A warning-severity issue, as recorded on a page whose resolution produced
advisory problems only (for instance warning issues handed back by a
DownloadContent policy, which NewPageFromHTTPResponse appends verbatim). -/
def c9WarningIssue : Issue :=
  newIssue "https://example.com/" MetaTagsNotAvailableInNonHTMLContent
    "Meta tags not available in non-HTML content" false

/-- A page whose recorded issues are all of warning severity. -/
def c9Page : Page := { AllIssues := [c9WarningIssue] }

/-- C9: the claim says a Page whose recorded issues are all warnings (no
issue with IsError() true) is reported valid.  The code violates this: Page.IsValid
(page.go lines 206-209) returns true only when AllIssues is nil or empty,
ignoring severity entirely, although its own doc comment reads
"IsValid returns true if there are no errors".  This theorem evaluates the
code at the failing input: a page carrying exactly one warning — IsWarning
true, IsError false — for which IsValid returns false. -/
theorem c9_warning_only_page_reported_invalid :
    c9WarningIssue.IsWarning = true
    ∧ c9WarningIssue.IsError = false
    ∧ c9Page.AllIssues = [c9WarningIssue]
    ∧ c9Page.IsValid = false :=
  ⟨rfl, rfl, rfl, rfl⟩

/-! ### C7 -/

/-- C7: for every HTTP response whose final status code is not 200, both
resolver variants fail before producing a page.  The factory variant returns
the InvalidHTTPRespStatusCodeError whose HTTPStatusCode field is exactly the
numeric status (its Error.Code field is the constant 200); the page.go
variant returns the issue built by newHTTPResponseIssue, whose code string
embeds the exact status. -/
theorem c7_non200_fails_with_exact_status
    (f : Factory) (classify : String → String → Except String PageTypeVal)
    (origURLtext : String) (resp : HTTPResponse)
    (pol : Policy) (classifyI : String → String → Except Issue PageTypeVal)
    (hurl : origURLtext.length ≠ 0) (hstatus : resp.statusCode ≠ 200) :
    f.PageFromURL classify origURLtext (.ok ()) (.ok resp)
      = ((none, some (.invalidHTTPRespStatusCode 200 resp.statusCode)),
         [.obtainHTTPClient, .newHTTPRequest, .prepareHTTPRequest, .httpGet])
    ∧ NewPageFromURL origURLtext (some pol) classifyI (.ok ()) (.ok resp)
      = ((none, some (newHTTPResponseIssue origURLtext resp.statusCode
          ("Invalid HTTP Response Status Code: " ++ toString resp.statusCode) true)),
         [.obtainHTTPClient, .newHTTPRequest, .prepareHTTPRequest, .httpGet])
    ∧ (newHTTPResponseIssue origURLtext resp.statusCode
          ("Invalid HTTP Response Status Code: " ++ toString resp.statusCode) true).code
      = "RESOURCE_E-0300-HTTP-" ++ toString resp.statusCode := by
  have h0 : (origURLtext.length == 0) = false := by
    simpa using hurl
  have h1 : (resp.statusCode != 200) = true := by
    simpa using hstatus
  refine ⟨?_, ?_, rfl⟩
  · simp [Factory.PageFromURL, h0, h1]
  · simp [NewPageFromURL, h0, h1]

/-- C7 witness: a concrete 404 response. -/
def c7Resp : HTTPResponse :=
  { statusCode := 404, contentTypeHeader := "text/html",
    requestURL := "https://t.co/fDxPF", parseOutcome := .ok emptyDoc }

def c7Policy : Policy :=
  { detectRedirectsInHTMLContent := fun _ => true,
    parseMetaDataInHTMLContent := fun _ => true,
    downloadContent := fun _ _ => (false, none, []) }

theorem c7_non200_fails_with_exact_status_witness :
    ({} : Factory).PageFromURL c1Classify "https://t.co/fDxPF" (.ok ()) (.ok c7Resp)
      = ((none, some (.invalidHTTPRespStatusCode 200 404)),
         [.obtainHTTPClient, .newHTTPRequest, .prepareHTTPRequest, .httpGet])
    ∧ NewPageFromURL "https://t.co/fDxPF" (some c7Policy) (fun _ _ => .ok htmlPageType) (.ok ()) (.ok c7Resp)
      = ((none, some (newHTTPResponseIssue "https://t.co/fDxPF" 404
          ("Invalid HTTP Response Status Code: " ++ toString 404) true)),
         [.obtainHTTPClient, .newHTTPRequest, .prepareHTTPRequest, .httpGet])
    ∧ (newHTTPResponseIssue "https://t.co/fDxPF" 404
          ("Invalid HTTP Response Status Code: " ++ toString 404) true).code
      = "RESOURCE_E-0300-HTTP-" ++ toString 404 := by
  have h := c7_non200_fails_with_exact_status ({} : Factory) c1Classify "https://t.co/fDxPF" c7Resp
    c7Policy (fun _ _ => .ok htmlPageType) (by decide) (by decide)
  exact h

/-! ### C10 -/

/-- The factory download phase never touches the PageType field. -/
theorem downloadPhase_PageType (f : Factory) (url : String) (result : Page) :
    ((f.downloadPhase url result).1).PageType = result.PageType := by
  unfold Factory.downloadPhase
  rcases f.contentDownloader with _ | dl
  · simp
  · rcases hdl : dl url result.PageType with ⟨ok, att, err⟩
    rcases err with _ | e
    · by_cases hok : (ok && att.isSome) = true <;> simp [hdl, hok]
    · rcases f.contentDownloaderErrorPolicy with _ | pol
      · simp [hdl]
      · by_cases hstop : pol url result.PageType e = true <;> simp [hdl, hstop]

/-- C10: for every page built by the factory from a response carrying no
Content-Type header (Header.Get yields the empty string), the PageType field
stays the nil interface value, so IsHTML(), MetaTags() and MetaTag(key) all
dereference a nil Type — modelled by the none result, which stands for the
Go panic — instead of returning a value or a structured issue. -/
theorem c10_missing_content_type_panics
    (f : Factory) (classify : String → String → Except String PageTypeVal)
    (url : String) (resp : HTTPResponse) (key : String)
    (h : resp.contentTypeHeader = "") :
    ((f.pageFromHTTPResponse classify url resp).1).PageType = none
    ∧ ((f.pageFromHTTPResponse classify url resp).1).IsHTML = none
    ∧ ((f.pageFromHTTPResponse classify url resp).1).MetaTags = none
    ∧ ((f.pageFromHTTPResponse classify url resp).1).MetaTag key = none := by
  have hpt : ((f.pageFromHTTPResponse classify url resp).1).PageType = none := by
    unfold Factory.pageFromHTTPResponse
    simp only [h]
    rw [if_neg (by simp : ¬ (("" : String).length > 0))]
    exact downloadPhase_PageType f url { MetaPropertyTags := [], TargetURL := some url }
  refine ⟨hpt, ?_, ?_, ?_⟩
  · simp [Page.IsHTML, hpt]
  · simp [Page.MetaTags, Page.IsHTML, hpt]
  · simp [Page.MetaTag, Page.MetaTags, Page.IsHTML, hpt]

/-- C10 witness: a concrete 200 response without a Content-Type header. -/
def c10Resp : HTTPResponse :=
  { statusCode := 200, contentTypeHeader := "",
    requestURL := "https://example.com/raw", parseOutcome := .ok emptyDoc }

theorem c10_missing_content_type_panics_witness :
    ((({} : Factory).pageFromHTTPResponse c1Classify "https://example.com/raw" c10Resp).1).PageType = none
    ∧ ((({} : Factory).pageFromHTTPResponse c1Classify "https://example.com/raw" c10Resp).1).IsHTML = none
    ∧ ((({} : Factory).pageFromHTTPResponse c1Classify "https://example.com/raw" c10Resp).1).MetaTags = none
    ∧ ((({} : Factory).pageFromHTTPResponse c1Classify "https://example.com/raw" c10Resp).1).MetaTag "og:title" = none :=
  c10_missing_content_type_panics ({} : Factory) c1Classify "https://example.com/raw" c10Resp "og:title" rfl

/-! ### C3 -/

/-- A download run where the copy succeeded but re-opening the just-written
destination for sniffing fails. -/
def c3BadOpenEnv : DownloadEnv :=
  { policyPresent := true,
    createFileOutcome := .ok "tempFile-0",
    copyOutcome := none,
    autoAssign := true,
    openOutcome := some "open tempFile-0: permission denied",
    matchOutcome := .error "unknown signature" }

/-- C3 counterexample: the claim says that after a successful copy, ANY
failure of the sniffing step — including a failure to re-open the just-written
destination — is swallowed and DownloadFile still returns true with a valid
attachment.  The code refutes this at a concrete input: with the copy
succeeded and os.Open failing, DownloadFile returns false and the attachment
carries an UnableToInspectFileType error, so it is not valid (file.go lines
130-134). -/
theorem c3_reopen_failure_is_fatal :
    c3BadOpenEnv.copyOutcome = none
    ∧ c3BadOpenEnv.autoAssign = true
    ∧ (DownloadFile c3BadOpenEnv (some "https://example.com/doc.bin") true none).1 = false
    ∧ ((DownloadFile c3BadOpenEnv (some "https://example.com/doc.bin") true none).2.1).map FileAttachment.IsValid
      = some false
    ∧ (DownloadFile c3BadOpenEnv (some "https://example.com/doc.bin") true none).2.2
      = [newIssue "https://example.com/doc.bin" UnableToInspectFileType "open tempFile-0: permission denied" true] :=
  ⟨rfl, rfl, rfl, rfl, rfl⟩

/-- C3 amended: after a successful copy, a failure of signature detection
itself is swallowed — DownloadFile returns true and the attachment is valid,
keeps its original DestPath and records no sniffed file type (the result of
reading the header bytes is discarded outright, so read problems cannot even
be observed) — but a failure to re-open the just-written destination is
fatal: DownloadFile returns false and the attachment records an
UnableToInspectFileType error. -/
theorem c3_sniff_failure_swallowed_reopen_fatal
    (env : DownloadEnv) (u destName : String) (typ : Option PageTypeVal)
    (hpol : env.policyPresent = true)
    (hcreate : env.createFileOutcome = .ok destName)
    (hcopy : env.copyOutcome = none)
    (hauto : env.autoAssign = true) :
    (∀ e, env.openOutcome = none → env.matchOutcome = .error e →
      DownloadFile env (some u) true typ
        = (true,
           some { TargetURL := some u, ContentType := typ, DestPath := destName,
                  FileType := none, AllIssues := [] },
           []))
    ∧ (∀ msg, env.openOutcome = some msg →
      DownloadFile env (some u) true typ
        = (false,
           some { TargetURL := some u, ContentType := typ, DestPath := destName,
                  FileType := none,
                  AllIssues := [newIssue u UnableToInspectFileType msg true] },
           [newIssue u UnableToInspectFileType msg true])) := by
  constructor
  · intro e hopen hmatch
    simp [DownloadFile, hpol, hcreate, hcopy, hauto, hopen, hmatch]
  · intro msg hopen
    simp [DownloadFile, hpol, hcreate, hcopy, hauto, hopen]

/-- A download run where re-opening succeeds but the signature match is
inconclusive. -/
def c3NoMatchEnv : DownloadEnv :=
  { policyPresent := true,
    createFileOutcome := .ok "tempFile-1",
    copyOutcome := none,
    autoAssign := true,
    openOutcome := none,
    matchOutcome := .error "empty buffer" }

theorem c3_sniff_failure_swallowed_reopen_fatal_witness :
    DownloadFile c3NoMatchEnv (some "https://example.com/doc.bin") true none
      = (true,
         some { TargetURL := some "https://example.com/doc.bin", ContentType := none,
                DestPath := "tempFile-1", FileType := none, AllIssues := [] },
         []) :=
  (c3_sniff_failure_swallowed_reopen_fatal c3NoMatchEnv "https://example.com/doc.bin" "tempFile-1" none
    rfl rfl rfl rfl).1 "empty buffer" rfl rfl

/-! ### C2 -/

/-- A document whose head holds a meta refresh directive with a two-digit
delay, the sort of value the pattern claimed by the spec accepts. -/
def c2Tree : HtmlNode :=
  .mk .documentNode "" []
    [ .mk .elementNode "html" []
      [ .mk .elementNode "head" []
        [ .mk .elementNode "meta"
            [ { key := "http-equiv", val := "refresh" },
              { key := "content", val := "12;url=https://example.com/x" } ] [] ] ] ]

/-- C2 counterexample: the claim says the trimmed content value is matched
against a pattern accepting any number of leading digits and any amount of
whitespace around the semicolon, so that content 12;url=... sets isRedirect.
The compiled pattern of the source (page.go line 16) accepts at most ONE
digit and at most one whitespace character on each side of the semicolon: on
the two-digit delay the spec-claimed pattern matches but the code pattern
does not, and the traversal records no redirect. -/
theorem c2_two_digit_delay_not_matched :
    specRefreshPatternMatch (trimSpace "12;url=https://example.com/x")
      = some ("12", "https://example.com/x")
    ∧ metaRefreshContentMatch (trimSpace "12;url=https://example.com/x") = none
    ∧ (parsePageMetaData emptyPage "https://example.com/" (.ok c2Tree)).page.IsHTMLRedirect = false
    ∧ (parsePageMetaData emptyPage "https://example.com/" (.ok c2Tree)).page.MetaRefreshTagContentURLText = "" :=
  ⟨rfl, rfl, rfl, rfl⟩

/-- C2 amended: for a meta element carrying an http-equiv attribute whose
trimmed value case-insensitively equals refresh together with a content
attribute, the trimmed content value is matched against the compiled pattern
with AT MOST ONE leading digit and AT MOST ONE whitespace character on each
side of the semicolon (one optional digit, optional space, semicolon,
optional space, literal url=, remainder); on a match isRedirect is set true
and the second capture group is stored verbatim as the redirect target text —
no decoding, no resolution against the base URL — and on no match both
redirect fields are left unchanged. -/
theorem c2_refresh_content_matched_against_code_pattern
    (st : MetaState) (hv v : String)
    (hrefresh : eqFold (trimSpace hv) "refresh" = true) :
    (∀ delay u, metaRefreshContentMatch (trimSpace v) = some (delay, u) →
      (processMeta st [{ key := "http-equiv", val := hv }, { key := "content", val := v }]).isRedirect = true
      ∧ (processMeta st [{ key := "http-equiv", val := hv }, { key := "content", val := v }]).redirectText = u)
    ∧ (metaRefreshContentMatch (trimSpace v) = none →
      (processMeta st [{ key := "http-equiv", val := hv }, { key := "content", val := v }]).isRedirect = st.isRedirect
      ∧ (processMeta st [{ key := "http-equiv", val := hv }, { key := "content", val := v }]).redirectText = st.redirectText) := by
  have e1 : eqFold "http-equiv" "http-equiv" = true := rfl
  have e2 : eqFold "http-equiv" "content" = false := rfl
  have e3 : eqFold "content" "content" = true := rfl
  have e4 : eqFold "http-equiv" "property" = false := rfl
  have e5 : eqFold "http-equiv" "name" = false := rfl
  have e6 : eqFold "content" "http-equiv" = false := rfl
  have e7 : eqFold "content" "property" = false := rfl
  have e8 : eqFold "content" "name" = false := rfl
  constructor
  · intro delay u hmatch
    simp [processMeta, processMetaAttr, processRefreshContent, processNameContent,
      e1, e2, e3, e4, e5, e6, e7, e8, hrefresh, hmatch]
  · intro hmatch
    simp [processMeta, processMetaAttr, processRefreshContent, processNameContent,
      e1, e2, e3, e4, e5, e6, e7, e8, hrefresh, hmatch]

theorem c2_refresh_content_matched_against_code_pattern_witness :
    (processMeta { isRedirect := false, redirectText := "", tags := [], inHead := true }
        [{ key := "http-equiv", val := "Refresh" },
         { key := "content", val := " 2 ; url=https://www.google.com" }]).isRedirect = true
    ∧ (processMeta { isRedirect := false, redirectText := "", tags := [], inHead := true }
        [{ key := "http-equiv", val := "Refresh" },
         { key := "content", val := " 2 ; url=https://www.google.com" }]).redirectText
      = "https://www.google.com" :=
  (c2_refresh_content_matched_against_code_pattern
    { isRedirect := false, redirectText := "", tags := [], inHead := true }
    "Refresh" " 2 ; url=https://www.google.com" rfl).1 "2" "https://www.google.com" rfl

/-! ### C5 -/

/-- parsePageMetaData never touches the attachment field. -/
theorem parsePageMetaData_attachment (p : Page) (u : String) (o : Except String HtmlNode) :
    (parsePageMetaData p u o).page.DownloadedAttachment = p.DownloadedAttachment := by
  cases o <;> rfl

/-- The factory download phase never touches HTMLParsed or the three metadata
fields. -/
theorem downloadPhase_meta_fields (f : Factory) (url : String) (result : Page) :
    ((f.downloadPhase url result).1).HTMLParsed = result.HTMLParsed
    ∧ ((f.downloadPhase url result).1).IsHTMLRedirect = result.IsHTMLRedirect
    ∧ ((f.downloadPhase url result).1).MetaRefreshTagContentURLText = result.MetaRefreshTagContentURLText
    ∧ ((f.downloadPhase url result).1).MetaPropertyTags = result.MetaPropertyTags := by
  unfold Factory.downloadPhase
  rcases f.contentDownloader with _ | dl
  · simp
  · rcases hdl : dl url result.PageType with ⟨ok, att, err⟩
    rcases err with _ | e
    · by_cases hok : (ok && att.isSome) = true <;> simp [hdl, hok]
    · rcases f.contentDownloaderErrorPolicy with _ | pol
      · simp [hdl]
      · by_cases hstop : pol url result.PageType e = true <;> simp [hdl, hstop]

/-- The page.go download phase never touches HTMLParsed or the three metadata
fields. -/
theorem pageDownloadPhase_meta_fields (pol : Policy) (url : String) (result : Page) :
    (pageDownloadPhase pol url result).HTMLParsed = result.HTMLParsed
    ∧ (pageDownloadPhase pol url result).IsHTMLRedirect = result.IsHTMLRedirect
    ∧ (pageDownloadPhase pol url result).MetaRefreshTagContentURLText = result.MetaRefreshTagContentURLText
    ∧ (pageDownloadPhase pol url result).MetaPropertyTags = result.MetaPropertyTags := by
  unfold pageDownloadPhase
  rcases hdl : pol.downloadContent url result.PageType with ⟨ok, att, issues⟩
  by_cases hok : (ok && att.isSome) = true <;> simp [hdl, hok]

/-- C5: for every page returned by either resolver variant, exactly one
population path ran: either HTMLParsed is true and the downloaded attachment
is absent, or HTMLParsed is false and the metadata fields (redirect flag,
redirect target text, tag mapping) are unpopulated — at most an attachment is
present on that branch. -/
theorem c5_single_population_path
    (f : Factory) (classify : String → String → Except String PageTypeVal)
    (url : String) (resp : HTTPResponse)
    (u2 : Option String) (resp2 : HTTPResponse) (pol : Option Policy)
    (classifyI : String → String → Except Issue PageTypeVal) :
    (((f.pageFromHTTPResponse classify url resp).1.HTMLParsed = true
        ∧ (f.pageFromHTTPResponse classify url resp).1.DownloadedAttachment = none)
      ∨ ((f.pageFromHTTPResponse classify url resp).1.HTMLParsed = false
        ∧ (f.pageFromHTTPResponse classify url resp).1.IsHTMLRedirect = false
        ∧ (f.pageFromHTTPResponse classify url resp).1.MetaRefreshTagContentURLText = ""
        ∧ (f.pageFromHTTPResponse classify url resp).1.MetaPropertyTags = []))
    ∧ (((NewPageFromHTTPResponse u2 resp2 pol classifyI).HTMLParsed = true
        ∧ (NewPageFromHTTPResponse u2 resp2 pol classifyI).DownloadedAttachment = none)
      ∨ ((NewPageFromHTTPResponse u2 resp2 pol classifyI).HTMLParsed = false
        ∧ (NewPageFromHTTPResponse u2 resp2 pol classifyI).IsHTMLRedirect = false
        ∧ (NewPageFromHTTPResponse u2 resp2 pol classifyI).MetaRefreshTagContentURLText = ""
        ∧ (NewPageFromHTTPResponse u2 resp2 pol classifyI).MetaPropertyTags = [])) := by
  constructor
  · unfold Factory.pageFromHTTPResponse
    by_cases hct : resp.contentTypeHeader.length > 0
    · simp only [hct, if_true]
      rcases hcl : classify url resp.contentTypeHeader with err | pt
      · simp
      · simp only []
        set result : Page := { MetaPropertyTags := [], TargetURL := some url, PageType := some pt } with hres
        by_cases hcond : ((result.IsHTML == some true)
            && (f.detectRedirectsInHTMLContent url || f.parseMetaDataInHTMLContent url)) = true
        · left
          simp only [hcond, if_true]
          refine ⟨trivial, ?_⟩
          simpa using parsePageMetaData_attachment result url resp.parseOutcome
        · right
          simp only [hcond, if_false]
          have h := downloadPhase_meta_fields f url result
          simpa [hres] using h
    · simp only [hct, if_false]
      right
      have h := downloadPhase_meta_fields f url { MetaPropertyTags := [], TargetURL := some url }
      simpa using h
  · unfold NewPageFromHTTPResponse
    rcases u2 with _ | u
    · right; simp
    · rcases pol with _ | p
      · right; simp
      · by_cases hct : resp2.contentTypeHeader.length > 0
        · simp only [hct, if_true]
          rcases hcl : classifyI u resp2.contentTypeHeader with issue | pt
          · simp
          · simp only []
            set result : Page := { MetaPropertyTags := [], TargetURL := some u, PageType := some pt } with hres
            by_cases hcond : ((result.IsHTML == some true)
                && (p.detectRedirectsInHTMLContent u || p.parseMetaDataInHTMLContent u)) = true
            · left
              simp only [hcond, if_true]
              refine ⟨trivial, ?_⟩
              simpa using parsePageMetaData_attachment result u resp2.parseOutcome
            · right
              simp only [hcond, if_false]
              have h := pageDownloadPhase_meta_fields p u result
              simpa [hres] using h
        · simp only [hct, if_false]
          right
          have h := pageDownloadPhase_meta_fields p u { MetaPropertyTags := [], TargetURL := some u }
          simpa using h

/-! ### C6

The goal is to characterize the traversal visit as a left-to-right walk of
the pre-order linearization in which the inHead flag, once set by the first
head element, stays set, and exactly the meta elements at or after that first
head element get processed.  The lemmas below show that meta processing never
touches the inHead flag and commutes with overwriting it. -/

theorem processRefreshContent_inHead (st : MetaState) (a : Attr) :
    (processRefreshContent st a).inHead = st.inHead := by
  unfold processRefreshContent
  by_cases h : eqFold a.key "content" = true
  · rcases hm : metaRefreshContentMatch (trimSpace a.val) with _ | ⟨delay, u⟩ <;> simp [h, hm]
  · simp [h]

theorem processNameContent_inHead (name : String) (st : MetaState) (a : Attr) :
    (processNameContent name st a).inHead = st.inHead := by
  unfold processNameContent
  by_cases h : eqFold a.key "content" = true <;> simp [h]

theorem foldl_inHead_preserved {α : Type} {g : MetaState → α → MetaState}
    (hg : ∀ st a, (g st a).inHead = st.inHead) :
    ∀ (l : List α) (st : MetaState), (l.foldl g st).inHead = st.inHead := by
  intro l
  induction l with
  | nil => intro st; rfl
  | cons a l ih =>
    intro st
    rw [List.foldl_cons, ih (g st a), hg st a]

theorem processMetaAttr_inHead (attrs : List Attr) (st : MetaState) (a : Attr) :
    (processMetaAttr attrs st a).inHead = st.inHead := by
  unfold processMetaAttr
  by_cases h1 : (eqFold a.key "http-equiv" && eqFold (trimSpace a.val) "refresh") = true
    <;> by_cases h2 : (eqFold a.key "property" || eqFold a.key "name") = true
    <;> simp [h1, h2, foldl_inHead_preserved processRefreshContent_inHead,
          foldl_inHead_preserved (processNameContent_inHead a.val)]

theorem processMeta_inHead (st : MetaState) (attrs : List Attr) :
    (processMeta st attrs).inHead = st.inHead :=
  foldl_inHead_preserved (processMetaAttr_inHead attrs) attrs st

theorem applyMetas_inHead (st : MetaState) (ms : List (List Attr)) :
    (applyMetas st ms).inHead = st.inHead :=
  foldl_inHead_preserved processMeta_inHead ms st

theorem processRefreshContent_setHead (b : Bool) (st : MetaState) (a : Attr) :
    processRefreshContent { st with inHead := b } a
      = { processRefreshContent st a with inHead := b } := by
  unfold processRefreshContent
  by_cases h : eqFold a.key "content" = true
  · rcases hm : metaRefreshContentMatch (trimSpace a.val) with _ | ⟨delay, u⟩ <;> simp [h, hm]
  · simp [h]

theorem processNameContent_setHead (name : String) (b : Bool) (st : MetaState) (a : Attr) :
    processNameContent name { st with inHead := b } a
      = { processNameContent name st a with inHead := b } := by
  unfold processNameContent
  by_cases h : eqFold a.key "content" = true <;> simp [h]

theorem foldl_setHead {α : Type} {g : MetaState → α → MetaState}
    (hg : ∀ b st a, g { st with inHead := b } a = { g st a with inHead := b }) :
    ∀ (l : List α) (b : Bool) (st : MetaState),
      l.foldl g { st with inHead := b } = { l.foldl g st with inHead := b } := by
  intro l
  induction l with
  | nil => intro b st; rfl
  | cons a l ih =>
    intro b st
    rw [List.foldl_cons, hg b st a, ih b (g st a), List.foldl_cons]

theorem processMetaAttr_setHead (attrs : List Attr) (b : Bool) (st : MetaState) (a : Attr) :
    processMetaAttr attrs { st with inHead := b } a
      = { processMetaAttr attrs st a with inHead := b } := by
  unfold processMetaAttr
  by_cases h1 : (eqFold a.key "http-equiv" && eqFold (trimSpace a.val) "refresh") = true
  · by_cases h2 : (eqFold a.key "property" || eqFold a.key "name") = true
    · simp only [h1, h2, if_true]
      rw [foldl_setHead processRefreshContent_setHead,
          foldl_setHead (processNameContent_setHead a.val)]
    · simp [h1, h2]
      rw [foldl_setHead processRefreshContent_setHead]
  · by_cases h2 : (eqFold a.key "property" || eqFold a.key "name") = true
    · simp [h1, h2]
      rw [foldl_setHead (processNameContent_setHead a.val)]
    · simp [h1, h2]

theorem processMeta_setHead (b : Bool) (st : MetaState) (attrs : List Attr) :
    processMeta { st with inHead := b } attrs = { processMeta st attrs with inHead := b } :=
  foldl_setHead (processMetaAttr_setHead attrs) attrs b st

theorem applyMetas_setHead (b : Bool) (st : MetaState) (ms : List (List Attr)) :
    applyMetas { st with inHead := b } ms = { applyMetas st ms with inHead := b } :=
  foldl_setHead (fun b st attrs => processMeta_setHead b st attrs) ms b st

theorem applyMetas_append (st : MetaState) (l1 l2 : List (List Attr)) :
    applyMetas st (l1 ++ l2) = applyMetas (applyMetas st l1) l2 :=
  List.foldl_append processMeta st l1 l2

theorem metasFrom_append :
    ∀ (l1 l2 : List HtmlNode) (ih : Bool),
      metasFrom (l1 ++ l2) ih = metasFrom l1 ih ++ metasFrom l2 (ih || l1.any isHeadElem) := by
  intro l1
  induction l1 with
  | nil => intro l2 ih; simp [metasFrom]
  | cons n l ihl =>
    intro l2 ih
    simp only [List.cons_append, metasFrom, List.any_cons, List.append_eq]
    rw [ihl l2 (ih || isHeadElem n)]
    simp [List.append_assoc, Bool.or_assoc]

/-- Structure eta for the inHead overwrite. -/
theorem setHead_self (x : MetaState) : { x with inHead := x.inHead } = x := rfl

/-- The node-local part of one visit step: setting inHead on a head element
and processing the node when it is an eligible meta element equals applying
the eligible-meta list of just this node from the bumped flag. -/
theorem visitOwnStep (st : MetaState) (t : NodeType) (d : String) (a : List Attr) :
    (let st1 := if t == NodeType.elementNode && eqFold d "head" then { st with inHead := true } else st
     if st1.inHead && (t == NodeType.elementNode && eqFold d "meta") then processMeta st1 a else st1)
    = { applyMetas st
          (if (st.inHead || (t == NodeType.elementNode && eqFold d "head"))
              && (t == NodeType.elementNode && eqFold d "meta") then [a] else [])
        with inHead := st.inHead || (t == NodeType.elementNode && eqFold d "head") } := by
  by_cases hH : (t == NodeType.elementNode && eqFold d "head") = true
  · by_cases hM : (t == NodeType.elementNode && eqFold d "meta") = true
    · simp only [hH, hM, if_true, Bool.or_true, Bool.true_and, Bool.and_true]
      rw [processMeta_setHead]
      simp [applyMetas]
    · simp only [hH, hM, if_true, Bool.or_true, Bool.and_false]
      simp [hM, applyMetas]
  · by_cases hM : (st.inHead && (t == NodeType.elementNode && eqFold d "meta")) = true
    · simp [hH, hM, applyMetas]
      rw [← processMeta_inHead st a]
    · simp [hH, hM, applyMetas]

/- The traversal characterization: visiting a node (resp. a child list)
equals processing the eligible meta elements of its pre-order linearization
and disjoining the inHead flag with head-element presence. -/
mutual

theorem visit_spec (st : MetaState) (n : HtmlNode) :
    visit st n
      = { applyMetas st (metasFrom (preorder n) st.inHead) with
          inHead := st.inHead || (preorder n).any isHeadElem } := by
  cases n with
  | mk t d a cs =>
    have h0 : visit st (HtmlNode.mk t d a cs)
        = visitList
            (let st1 := if t == NodeType.elementNode && eqFold d "head" then { st with inHead := true } else st
             if st1.inHead && (t == NodeType.elementNode && eqFold d "meta") then processMeta st1 a else st1)
            cs := rfl
    rw [h0, visitOwnStep, visitList_spec]
    rw [applyMetas_setHead]
    rw [← applyMetas_append]
    simp [preorder, metasFrom, isHeadElem, isMetaElem, HtmlNode.ntype, HtmlNode.data,
      HtmlNode.attrs, Bool.or_assoc]

theorem visitList_spec (st : MetaState) (l : List HtmlNode) :
    visitList st l
      = { applyMetas st (metasFrom (preorderList l) st.inHead) with
          inHead := st.inHead || (preorderList l).any isHeadElem } := by
  cases l with
  | nil =>
    cases st
    simp [visitList, preorderList, metasFrom, applyMetas]
  | cons c cs =>
    have h0 : visitList st (c :: cs) = visitList (visit st c) cs := rfl
    rw [h0, visit_spec st c, visitList_spec]
    rw [applyMetas_setHead]
    rw [← applyMetas_append]
    simp [preorderList, metasFrom_append, List.any_append, Bool.or_assoc]

end

/-- C6: the metadata-extraction traversal equals a left-to-right walk of the
pre-order linearization of the document tree in which the in-head flag
becomes true at the first head element (element node whose name
case-insensitively equals head) and is never reset — the final flag is the
disjunction of the initial flag with head-element presence — and the meta
elements that get processed (for redirect directives and property/name
content pairs, via processMeta) are exactly those at or after that first
head element in pre-order: metasFrom skips every meta element strictly
before the first head element and keeps every one from the first head
element on, anywhere in the remaining traversal, inside or outside head. -/
theorem c6_first_head_in_preorder_gates_metas (st : MetaState) (root : HtmlNode) :
    visit st root
      = { applyMetas st (metasFrom (preorder root) st.inHead) with
          inHead := st.inHead || (preorder root).any isHeadElem } :=
  visit_spec st root

end Resource
